import Mathlib

/-!
Verification development for a 5-stage pipeline stall simulator.

The repository contains two C programs sharing one no-forwarding RAW-stall
model over a tiny ISA (`add`, `sub`, `mov`):

* a closed-form *Timeline Calculator* (`pipeline_sim.c`, here `src/unnamed/part_000`)
  that computes per-instruction stall counts and stage-entry cycles, and
* a cycle-by-cycle *Cycle Simulator* (`src/extended_simulator.c`) that steps a
  five-slot pipeline register array until every instruction has retired.

This file is a shallow embedding of both cores.  Text parsing, tracing and CSV
output are out of scope (the spec treats them as external collaborators); the
embedding starts from an already-parsed program, exactly the data the two
`main` loops operate on.  The `text` field of the C `Instr` structure is pure
rendering and the `finished` flag is written but never read by either program,
so both are omitted from the embedded instruction record.
-/

namespace Pipeline

/-- Opcode enumeration (`Op` in both C files).  `OP_BAD` marks unparsable
lines which never reach a program, so it has no counterpart here. -/
inductive Op where
  | add
  | sub
  | mov
  deriving DecidableEq, Repr

/-- One decoded instruction (`Instr` in both C files): opcode, destination
register name, and source register names (`rs[0..rs_count)`). -/
structure Instr where
  op : Op
  rd : String
  rs : List String
  deriving DecidableEq, Repr

/-- Validated program as consumed by both cores: nonempty, registers named,
arity matching the opcode (1 source for `mov`, 2 for `add`/`sub`). -/
@[reducible]
def ValidProgram (prog : List Instr) : Prop :=
  prog ≠ [] ∧ ∀ ins ∈ prog, ins.rd ≠ "" ∧
    (ins.op = Op.mov → ins.rs.length = 1) ∧ (ins.op ≠ Op.mov → ins.rs.length = 2)

/-- `reg_in_sources` from both C files: is `reg` among the instruction's
source registers (string comparison)? -/
def reg_in_sources (reg : String) (ins : Instr) : Bool :=
  ins.rs.any fun r => r == reg

/-- Per-instruction stall rule of the Timeline Calculator
(`pipeline_sim.c` lines 175-178): `d1`/`d2` are the destination registers of
instructions `i-1`/`i-2`, with `""` meaning absent (the C code initialises
both to the empty string and tests `d1[0]`/`d2[0]`).  A dependency on `d1`
costs 2 stalls; a dependency on `d2` raises the count to at least 1
(`s = (s>1? s:1)`). -/
def stalls_rule (d1 d2 : String) (ins : Instr) : Nat :=
  let s : Nat := if d1 ≠ "" ∧ reg_in_sources d1 ins then 2 else 0
  if d2 ≠ "" ∧ reg_in_sources d2 ins then max s 1 else s

/-- Stall computation loop of the Timeline Calculator (`pipeline_sim.c`
lines 173-181): walk the program carrying the last two destination
registers. -/
def stallsFrom : String → String → List Instr → List Nat
  | _, _, [] => []
  | d1, d2, ins :: rest => stalls_rule d1 d2 ins :: stallsFrom ins.rd d1 rest

/-- `stalls[i]` of the Timeline Calculator, starting from empty windows. -/
def stallsBefore (prog : List Instr) : List Nat :=
  stallsFrom "" "" prog

/-- Fetch-cycle loop of the Timeline Calculator (`pipeline_sim.c`
lines 183-189): `start_if = curIF + s`, then `curIF = start_if + 1`. -/
def ifFrom : Nat → List Nat → List Nat
  | _, [] => []
  | curIF, s :: rest => (curIF + s) :: ifFrom (curIF + s + 1) rest

/-- `IFc[i]` of the Timeline Calculator (`curIF` starts at 1). -/
def IFc (prog : List Instr) : List Nat :=
  ifFrom 1 (stallsBefore prog)

/-- `IDc[i] = IFc[i] + 1` (`pipeline_sim.c` line 187). -/
def IDc (prog : List Instr) : List Nat := (IFc prog).map (· + 1)

/-- `EXc[i] = IFc[i] + 2` (`pipeline_sim.c` line 187). -/
def EXc (prog : List Instr) : List Nat := (IFc prog).map (· + 2)

/-- `MEMc[i] = IFc[i] + 3` (`pipeline_sim.c` line 187). -/
def MEMc (prog : List Instr) : List Nat := (IFc prog).map (· + 3)

/-- `WBc[i] = IFc[i] + 4` (`pipeline_sim.c` line 187). -/
def WBc (prog : List Instr) : List Nat := (IFc prog).map (· + 4)

/-- `sum_stalls` of the Timeline Calculator (`pipeline_sim.c` line 191). -/
def totalStallsCalc (prog : List Instr) : Nat :=
  (stallsBefore prog).sum

/-- `total_cycles = WBc[n-1]` of the Timeline Calculator (line 193). -/
def totalCyclesCalc (prog : List Instr) : Nat :=
  (WBc prog).getLastD 0

/-- Mutable state of the Cycle Simulator's loop (`extended_simulator.c`
lines 211-217): the five pipeline slots `pipe[0..4]` (IF, ID, EX, MEM, WB)
hold instruction indices, with `none` for the C sentinel `-1` (bubble), plus
the program counter, retire count, stall-cycle total, cycle counter and the
pending-stall counter. -/
structure SimState where
  pIF : Option Nat
  pID : Option Nat
  pEX : Option Nat
  pMEM : Option Nat
  pWB : Option Nat
  pc : Nat
  completed : Nat
  total_stalls : Nat
  cycle : Nat
  stall_counter : Nat
  deriving DecidableEq, Repr

/-- Initial simulator state: empty pipe, all counters zero. -/
def initState : SimState :=
  { pIF := none, pID := none, pEX := none, pMEM := none, pWB := none,
    pc := 0, completed := 0, total_stalls := 0, cycle := 0, stall_counter := 0 }

/-- Array access `prog[i]` of the C code.  The simulator only ever stores
indices `< prog.length` in the pipe (a proved invariant), so the default is
never observable from reachable states. -/
def instrAt (prog : List Instr) (i : Nat) : Instr :=
  prog.getD i { op := Op.add, rd := "", rs := [] }

/-- `needed_stalls_for_id` (`extended_simulator.c` lines 180-185): with an
instruction in ID, a producer in EX whose destination it reads costs 2
stalls, else a producer in MEM whose destination it reads costs 1, else 0. -/
def needed_stalls_for_id (prog : List Instr) (id_idx ex_idx mem_idx : Option Nat) : Nat :=
  match id_idx with
  | none => 0
  | some id =>
    if ex_idx.any fun ex => reg_in_sources (instrAt prog ex).rd (instrAt prog id) then 2
    else if mem_idx.any fun m => reg_in_sources (instrAt prog m).rd (instrAt prog id) then 1
    else 0

/-- Top of the simulator loop (`extended_simulator.c` lines 227-234):
advance the cycle counter, then retire the Write-back occupant if any. -/
def tickRetire (st : SimState) : SimState :=
  let st := { st with cycle := st.cycle + 1 }
  match st.pWB with
  | some _ => { st with completed := st.completed + 1, pWB := none }
  | none => st

/-- Stall-insertion branch (`extended_simulator.c` lines 241-264): shift
MEM into WB and EX into MEM (EX becomes a bubble), leave ID and IF in place,
count the bubble cycle and consume one pending stall. -/
def stallStep (st : SimState) : SimState :=
  let st := match st.pMEM with
    | some j => { st with pWB := some j, pMEM := none }
    | none => st
  let st := match st.pEX with
    | some j => { st with pMEM := some j, pEX := none }
    | none => st
  { st with total_stalls := st.total_stalls + 1, stall_counter := st.stall_counter - 1 }

/-- Normal right-to-left advancement plus fetch (`extended_simulator.c`
lines 269-273): each occupied slot moves one stage on, then the next
instruction (if any) is fetched into IF, else IF is emptied. -/
def shiftFetch (prog : List Instr) (st : SimState) : SimState :=
  let st := match st.pMEM with
    | some j => { st with pWB := some j, pMEM := none }
    | none => st
  let st := match st.pEX with
    | some j => { st with pMEM := some j, pEX := none }
    | none => st
  let st := match st.pID with
    | some j => { st with pEX := some j, pID := none }
    | none => st
  let st := match st.pIF with
    | some j => { st with pID := some j, pIF := none }
    | none => st
  if st.pc < prog.length then { st with pIF := some st.pc, pc := st.pc + 1 }
  else { st with pIF := none }

/-- Normal-advance branch (`extended_simulator.c` lines 269-290): shift and
fetch, then re-evaluate hazards for the new ID occupant against the new EX
and MEM occupants; on a required stall, undo the ID-to-EX move if it moved
the very instruction that must stall (`pipe[2] == id_idx`), and arm the
pending-stall counter. -/
def advanceStep (prog : List Instr) (st : SimState) : SimState :=
  let a := shiftFetch prog st
  let req := needed_stalls_for_id prog a.pID a.pEX a.pMEM
  if 0 < req then
    let a := if a.pEX = a.pID then { a with pID := a.pEX, pEX := none } else a
    { a with stall_counter := req }
  else a

/-- One iteration of the simulator loop body (`extended_simulator.c`
lines 226-311): retire, then either insert a stall bubble or advance. -/
def step (prog : List Instr) (st : SimState) : SimState :=
  let st := tickRetire st
  if 0 < st.stall_counter then stallStep st else advanceStep prog st

/-- Fuel-indexed unfolding of `while (completed < n)`: iterate `step` while
instructions remain, faithful to the C loop whenever the fuel suffices. -/
def runSim (prog : List Instr) : Nat → SimState → SimState
  | 0, st => st
  | fuel + 1, st =>
    if st.completed < prog.length then runSim prog fuel (step prog st) else st

/-- The Cycle Simulator's run on a program.  The fuel `18 * prog.length`
dominates the loop variant proved below, so the loop always finishes within
it and the result is the C program's final state. -/
def simulate (prog : List Instr) : SimState :=
  runSim prog (18 * prog.length) initState

/-- State after `t` iterations of the loop body from the initial state. -/
def stepIter (prog : List Instr) : Nat → SimState
  | 0 => initState
  | t + 1 => step prog (stepIter prog t)

/-- Reachability of a simulator state: some number of loop iterations from
the initial state produces it. -/
def Reachable (prog : List Instr) (st : SimState) : Prop :=
  ∃ t, stepIter prog t = st

/-- Scenario program with a single instruction `add x1, x2, x3`. -/
def progSingle : List Instr :=
  [{ op := Op.add, rd := "x1", rs := ["x2", "x3"] }]

/-- Spec scenario A: three independent adds, no hazards. -/
def progA : List Instr :=
  [{ op := Op.add, rd := "x1", rs := ["x2", "x3"] },
   { op := Op.add, rd := "x4", rs := ["x5", "x6"] },
   { op := Op.add, rd := "x7", rs := ["x8", "x9"] }]

/-- Spec scenario B: `sub x4, x1, x5` depends on the previous `add`'s `x1`. -/
def progB : List Instr :=
  [{ op := Op.add, rd := "x1", rs := ["x2", "x3"] },
   { op := Op.sub, rd := "x4", rs := ["x1", "x5"] }]

/-- Three instructions where the third depends (only) on the first's `x1`,
and the second stalls on the first: the two cores count stalls differently
here. -/
def progC : List Instr :=
  [{ op := Op.add, rd := "x1", rs := ["x2", "x3"] },
   { op := Op.sub, rd := "x4", rs := ["x1", "x5"] },
   { op := Op.add, rd := "x6", rs := ["x1", "x7"] }]

/-- Closed form of the shift-and-fetch phase on a state whose Write-back
slot has already been cleared (proved as `shiftFetch_eq` below). -/
def shifted (prog : List Instr) (st : SimState) : SimState :=
  { st with
    pWB := st.pMEM, pMEM := st.pEX, pEX := st.pID, pID := st.pIF,
    pIF := if st.pc < prog.length then some st.pc else none,
    pc := if st.pc < prog.length then st.pc + 1 else st.pc }

/-- State reached after the retire and shift-and-fetch phases of a normal
(non-stalling) cycle, before the hazard re-check. -/
def normalShifted (prog : List Instr) (st : SimState) : SimState :=
  { pIF := if st.pc < prog.length then some st.pc else none,
    pID := st.pIF, pEX := st.pID, pMEM := st.pEX, pWB := st.pMEM,
    pc := if st.pc < prog.length then st.pc + 1 else st.pc,
    completed := st.completed + (if st.pWB.isSome then 1 else 0),
    total_stalls := st.total_stalls,
    cycle := st.cycle + 1,
    stall_counter := st.stall_counter }

/-- Variant of `advanceStep` with the undo branch (`pipe[2] == id_idx` in
`extended_simulator.c` lines 283-286) removed: used to state that the undo
never fires in reachable states. -/
def advanceNoRevert (prog : List Instr) (st : SimState) : SimState :=
  let a := shiftFetch prog st
  let req := needed_stalls_for_id prog a.pID a.pEX a.pMEM
  if 0 < req then { a with stall_counter := req } else a

/-- Loop body with the undo branch removed. -/
def stepNoRevert (prog : List Instr) (st : SimState) : SimState :=
  let st := tickRetire st
  if 0 < st.stall_counter then stallStep st else advanceNoRevert prog st

/-- Slot-occupant order: every index held by the first slot strictly
exceeds every index held by the second (vacuously true for bubbles). -/
def oGt (a b : Option Nat) : Prop :=
  ∀ x, a = some x → ∀ y, b = some y → y < x

/-- Slot occupants are bounded by the program counter. -/
def oLtPc (a : Option Nat) (pc : Nat) : Prop :=
  ∀ x, a = some x → x < pc

/-- Number of occupied pipeline slots. -/
def occCount (st : SimState) : Nat :=
  (if st.pIF.isSome then 1 else 0) + (if st.pID.isSome then 1 else 0) +
    (if st.pEX.isSome then 1 else 0) + (if st.pMEM.isSome then 1 else 0) +
    (if st.pWB.isSome then 1 else 0)

/-- Loop invariant of the Cycle Simulator: the program counter never
exceeds the program length; every slot occupant has been fetched
(index `< pc`); occupants strictly decrease from Fetch down to Write-back
(hence all occupied slots hold pairwise distinct indices and instructions
never overtake each other); and instructions are conserved: retired ones
plus in-flight ones plus unfetched ones add up to the program length. -/
def Inv (n : Nat) (st : SimState) : Prop :=
  st.pc ≤ n ∧
  (oLtPc st.pIF st.pc ∧ oLtPc st.pID st.pc ∧ oLtPc st.pEX st.pc ∧
    oLtPc st.pMEM st.pc ∧ oLtPc st.pWB st.pc) ∧
  (oGt st.pIF st.pID ∧ oGt st.pIF st.pEX ∧ oGt st.pIF st.pMEM ∧ oGt st.pIF st.pWB ∧
    oGt st.pID st.pEX ∧ oGt st.pID st.pMEM ∧ oGt st.pID st.pWB ∧
    oGt st.pEX st.pMEM ∧ oGt st.pEX st.pWB ∧ oGt st.pMEM st.pWB) ∧
  st.completed + occCount st + (n - st.pc) = n

/-- Pipeline stage currently occupied by instruction index `i` (0 = Fetch,
1 = Decode, 2 = Execute, 3 = Memory, 4 = Write-back), if any. -/
def stageOf (st : SimState) (i : Nat) : Option Nat :=
  if st.pIF = some i then some 0
  else if st.pID = some i then some 1
  else if st.pEX = some i then some 2
  else if st.pMEM = some i then some 3
  else if st.pWB = some i then some 4
  else none

/-- Number of pipeline slots holding instruction index `i`. -/
def slotCount (st : SimState) (i : Nat) : Nat :=
  (if st.pIF = some i then 1 else 0) + (if st.pID = some i then 1 else 0) +
    (if st.pEX = some i then 1 else 0) + (if st.pMEM = some i then 1 else 0) +
    (if st.pWB = some i then 1 else 0)

/-- Admissible one-cycle movement of a single instruction: enter at Fetch,
retire from Write-back, stay put only in Fetch or Decode (the stalled
stages), or advance by exactly one stage -- never skip a stage. -/
def stepOk : Option Nat → Option Nat → Prop
  | none, none => True
  | none, some t => t = 0
  | some s, none => s = 4
  | some s, some t => (t = s ∧ s ≤ 1) ∨ t = s + 1

/-- Remaining pipeline work of a state: 6 per unfetched instruction, and
5/4/3/2/1 for occupants of Fetch/Decode/Execute/Memory/Write-back. -/
def work (n : Nat) (st : SimState) : Nat :=
  6 * (n - st.pc) + (if st.pIF.isSome then 5 else 0) + (if st.pID.isSome then 4 else 0) +
    (if st.pEX.isSome then 3 else 0) + (if st.pMEM.isSome then 2 else 0) +
    (if st.pWB.isSome then 1 else 0)

/-- Loop variant: strictly decreases on every iteration taken while
instructions remain, bounding the loop length by `3 * 6 * N = 18 N`. -/
def simVariant (n : Nat) (st : SimState) : Nat :=
  3 * work n st + st.stall_counter

/-! ### Characterisations of the loop-body pieces

The C moves are guarded (`if (pipe[k] >= 0) ...`), but once the Write-back
slot has been cleared by the retire phase they amount to an unconditional
shift; the lemmas below record those closed forms. -/

theorem tickRetire_eq (st : SimState) :
    tickRetire st =
      { st with
        cycle := st.cycle + 1, pWB := none,
        completed := st.completed + (if st.pWB.isSome then 1 else 0) } := by
  cases st with
  | mk pIF pID pEX pMEM pWB pc c ts cyc sc => cases pWB <;> rfl

theorem stallStep_eq (st : SimState) (h : st.pWB = none) :
    stallStep st =
      { st with
        pWB := st.pMEM, pMEM := st.pEX, pEX := none,
        total_stalls := st.total_stalls + 1,
        stall_counter := st.stall_counter - 1 } := by
  cases st with
  | mk pIF pID pEX pMEM pWB pc c ts cyc sc =>
    cases pWB with
    | some v => simp at h
    | none => cases pMEM <;> cases pEX <;> rfl

theorem shiftFetch_eq (prog : List Instr) (st : SimState) (h : st.pWB = none) :
    shiftFetch prog st = shifted prog st := by
  cases st with
  | mk pIF pID pEX pMEM pWB pc c ts cyc sc =>
    cases pWB with
    | some v => simp at h
    | none =>
      by_cases hpc : pc < prog.length <;>
        cases pIF <;> cases pID <;> cases pEX <;> cases pMEM <;>
          simp [shiftFetch, shifted, hpc]

theorem advanceStep_eq (prog : List Instr) (st : SimState) (h : st.pWB = none) :
    advanceStep prog st =
      (let a := shifted prog st
       let req := needed_stalls_for_id prog a.pID a.pEX a.pMEM
       if 0 < req then
         (if a.pEX = a.pID then { a with pID := a.pEX, pEX := none, stall_counter := req }
          else { a with stall_counter := req })
       else a) := by
  unfold advanceStep
  rw [shiftFetch_eq prog st h]
  by_cases hreq :
      0 < needed_stalls_for_id prog (shifted prog st).pID (shifted prog st).pEX
            (shifted prog st).pMEM
  · by_cases hex : (shifted prog st).pEX = (shifted prog st).pID <;> simp [hreq, hex]
  · simp [hreq]

theorem step_stall (prog : List Instr) (st : SimState) (h : 0 < st.stall_counter) :
    step prog st =
      { st with
        pEX := none, pMEM := st.pEX, pWB := st.pMEM,
        completed := st.completed + (if st.pWB.isSome then 1 else 0),
        total_stalls := st.total_stalls + 1, cycle := st.cycle + 1,
        stall_counter := st.stall_counter - 1 } := by
  cases st with
  | mk pIF pID pEX pMEM pWB pc c ts cyc sc =>
    cases pWB <;> cases pMEM <;> cases pEX <;>
      simp [step, tickRetire, stallStep, h]

theorem shifted_tickRetire (prog : List Instr) (st : SimState) :
    shifted prog (tickRetire st) = normalShifted prog st := by
  cases st with
  | mk pIF pID pEX pMEM pWB pc c ts cyc sc =>
    cases pWB <;> rfl

theorem step_normal (prog : List Instr) (st : SimState) (h : st.stall_counter = 0) :
    step prog st =
      (let a := normalShifted prog st
       let req := needed_stalls_for_id prog a.pID a.pEX a.pMEM
       if 0 < req then
         (if a.pEX = a.pID then { a with pID := a.pEX, pEX := none, stall_counter := req }
          else { a with stall_counter := req })
       else a) := by
  have hsc : (tickRetire st).stall_counter = st.stall_counter := by
    rw [tickRetire_eq]
  have hwb : (tickRetire st).pWB = none := by rw [tickRetire_eq]
  have hstep : step prog st = advanceStep prog (tickRetire st) := by
    simp only [step]
    rw [hsc, h]
    simp
  rw [hstep, advanceStep_eq prog (tickRetire st) hwb, shifted_tickRetire]

theorem needed_stalls_le_two (prog : List Instr) (id_idx ex_idx mem_idx : Option Nat) :
    needed_stalls_for_id prog id_idx ex_idx mem_idx ≤ 2 := by
  cases id_idx with
  | none => exact Nat.zero_le 2
  | some id =>
    unfold needed_stalls_for_id
    by_cases h1 : (ex_idx.any fun ex => reg_in_sources (instrAt prog ex).rd (instrAt prog id)) = true
    · simp [h1]
    · by_cases h2 :
          (mem_idx.any fun m => reg_in_sources (instrAt prog m).rd (instrAt prog id)) = true <;>
        simp [h1, h2]

theorem stallStep_completed (s : SimState) : (stallStep s).completed = s.completed := by
  cases s with
  | mk pIF pID pEX pMEM pWB pc c ts cyc sc => cases pMEM <;> cases pEX <;> rfl

theorem shiftFetch_completed (prog : List Instr) (s : SimState) :
    (shiftFetch prog s).completed = s.completed := by
  cases s with
  | mk pIF pID pEX pMEM pWB pc c ts cyc sc =>
    by_cases hpc : pc < prog.length <;>
      cases pIF <;> cases pID <;> cases pEX <;> cases pMEM <;>
        simp [shiftFetch, hpc]

theorem advanceStep_completed (prog : List Instr) (s : SimState) :
    (advanceStep prog s).completed = s.completed := by
  simp only [advanceStep]
  split_ifs <;> simp [shiftFetch_completed]

theorem completed_mono (prog : List Instr) (st : SimState) :
    st.completed ≤ (step prog st).completed := by
  have hret : st.completed ≤ (tickRetire st).completed := by
    rw [tickRetire_eq]
    exact Nat.le_add_right _ _
  simp only [step]
  split_ifs with h
  · rw [stallStep_completed]
    exact hret
  · rw [advanceStep_completed]
    exact hret

/-! ### C3: the Hazard Oracle -/

/-- C3: the Hazard Oracle returns 2 when the first producer (the EX
occupant, resp. the `i-1` destination window `d1`) writes a register the
consumer reads; otherwise 1 when the second producer (the MEM occupant,
resp. the `i-2` window `d2`) does; otherwise 0.  The rules are evaluated in
strict priority order, so a consumer depending on both producers gets 2,
never a sum; both implementations (`needed_stalls_for_id` of the Cycle
Simulator and the inline `d1`/`d2` rule of the Timeline Calculator) are
pure functions of their inputs, hence deterministic. -/
theorem hazard_oracle_spec (prog : List Instr) (i : Nat) (ex_idx mem_idx : Option Nat)
    (d1 d2 : String) (ins : Instr) :
    needed_stalls_for_id prog none ex_idx mem_idx = 0 ∧
    needed_stalls_for_id prog (some i) ex_idx mem_idx =
      (if ex_idx.any fun e => reg_in_sources (instrAt prog e).rd (instrAt prog i) then 2
       else if mem_idx.any fun m => reg_in_sources (instrAt prog m).rd (instrAt prog i) then 1
       else 0) ∧
    stalls_rule d1 d2 ins =
      (if d1 ≠ "" ∧ reg_in_sources d1 ins then 2
       else if d2 ≠ "" ∧ reg_in_sources d2 ins then 1
       else 0) ∧
    (∀ e m', reg_in_sources (instrAt prog e).rd (instrAt prog i) = true →
      reg_in_sources (instrAt prog m').rd (instrAt prog i) = true →
      needed_stalls_for_id prog (some i) (some e) (some m') = 2) ∧
    (d1 ≠ "" → reg_in_sources d1 ins = true → reg_in_sources d2 ins = true →
      stalls_rule d1 d2 ins = 2) := by
  refine ⟨rfl, rfl, ?_, ?_, ?_⟩
  · by_cases hA : d1 ≠ "" ∧ reg_in_sources d1 ins <;>
      by_cases hB : d2 ≠ "" ∧ reg_in_sources d2 ins <;>
        simp [stalls_rule, hA, hB]
  · intro e m' he hm'
    simp [needed_stalls_for_id, he]
  · intro hne h1 h2
    simp [stalls_rule, hne, h1, h2]

/-- Witness for C3's conditional conjuncts at concrete inputs: in `progB`
the consumer `sub x4, x1, x5` reads `x1`, the destination of both chosen
producers, and the oracle answers 2. -/
theorem hazard_oracle_spec_witness :
    reg_in_sources (instrAt progB 0).rd (instrAt progB 1) = true ∧
    needed_stalls_for_id progB (some 1) (some 0) (some 0) = 2 :=
  ⟨by decide,
   (hazard_oracle_spec progB 1 (some 0) (some 0) "x1" "x1" (instrAt progB 1)).2.2.2.1
     0 0 (by decide) (by decide)⟩

/-! ### Reachability invariant of the simulator loop -/

theorem oLtPc_none (pc : Nat) : oLtPc none pc := fun x hx => nomatch hx

theorem oGt_right_none (a : Option Nat) : oGt a none := fun _ _ y hy => nomatch hy

theorem oGt_left_none (b : Option Nat) : oGt none b := fun x hx => nomatch hx

theorem oLtPc_mono {a : Option Nat} {p q : Nat} (hpq : p ≤ q) (h : oLtPc a p) :
    oLtPc a q :=
  fun x hx => lt_of_lt_of_le (h x hx) hpq

theorem oGt_fetch {b : Option Nat} {p : Nat} (h : oLtPc b p) : oGt (some p) b := by
  intro x hx y hy
  injection hx with hx'
  subst hx'
  exact h y hy

theorem normalShifted_fetch (prog : List Instr) (st : SimState)
    (hf : st.pc < prog.length) :
    normalShifted prog st =
      { pIF := some st.pc, pID := st.pIF, pEX := st.pID, pMEM := st.pEX,
        pWB := st.pMEM, pc := st.pc + 1,
        completed := st.completed + (if st.pWB.isSome then 1 else 0),
        total_stalls := st.total_stalls, cycle := st.cycle + 1,
        stall_counter := st.stall_counter } := by
  simp [normalShifted, hf]

theorem normalShifted_nofetch (prog : List Instr) (st : SimState)
    (hf : ¬ st.pc < prog.length) :
    normalShifted prog st =
      { pIF := none, pID := st.pIF, pEX := st.pID, pMEM := st.pEX,
        pWB := st.pMEM, pc := st.pc,
        completed := st.completed + (if st.pWB.isSome then 1 else 0),
        total_stalls := st.total_stalls, cycle := st.cycle + 1,
        stall_counter := st.stall_counter } := by
  simp [normalShifted, hf]

theorem needed_stalls_none (prog : List Instr) (e m : Option Nat) :
    needed_stalls_for_id prog none e m = 0 := rfl

theorem step_normal_no_stall (prog : List Instr) (st : SimState)
    (h0 : st.stall_counter = 0)
    (hreq : needed_stalls_for_id prog (normalShifted prog st).pID
        (normalShifted prog st).pEX (normalShifted prog st).pMEM = 0) :
    step prog st = normalShifted prog st := by
  rw [step_normal prog st h0]
  simp [hreq]

theorem step_normal_arm (prog : List Instr) (st : SimState)
    (h0 : st.stall_counter = 0)
    (hreq : 0 < needed_stalls_for_id prog (normalShifted prog st).pID
        (normalShifted prog st).pEX (normalShifted prog st).pMEM)
    (hne : ¬ (normalShifted prog st).pEX = (normalShifted prog st).pID) :
    step prog st =
      { normalShifted prog st with
        stall_counter := needed_stalls_for_id prog (normalShifted prog st).pID
          (normalShifted prog st).pEX (normalShifted prog st).pMEM } := by
  rw [step_normal prog st h0]
  simp [hreq, hne]

/-- Invariant of the normal-shifted state: the heart of the preservation
argument. -/
theorem inv_normalShifted (prog : List Instr) (st : SimState)
    (h : Inv prog.length st) : Inv prog.length (normalShifted prog st) := by
  obtain ⟨hpc, ⟨hIF, hID, hEX, hMEM, hWB⟩,
    ⟨o1, o2, o3, o4, o5, o6, o7, o8, o9, o10⟩, hcons⟩ := h
  by_cases hf : st.pc < prog.length
  · rw [normalShifted_fetch prog st hf]
    refine ⟨(by show st.pc + 1 ≤ prog.length; omega),
      ⟨?_, oLtPc_mono (Nat.le_succ _) hIF, oLtPc_mono (Nat.le_succ _) hID,
        oLtPc_mono (Nat.le_succ _) hEX, oLtPc_mono (Nat.le_succ _) hMEM⟩,
      ⟨oGt_fetch hIF, oGt_fetch hID, oGt_fetch hEX, oGt_fetch hMEM,
        o1, o2, o3, o5, o6, o8⟩, ?_⟩
    · intro x hx
      injection hx with hx'
      show x < st.pc + 1
      omega
    · show st.completed + (if st.pWB.isSome then 1 else 0) +
        ((if (some st.pc : Option Nat).isSome then 1 else 0) +
          (if st.pIF.isSome then 1 else 0) + (if st.pID.isSome then 1 else 0) +
          (if st.pEX.isSome then 1 else 0) + (if st.pMEM.isSome then 1 else 0)) +
        (prog.length - (st.pc + 1)) = prog.length
      simp only [occCount] at hcons
      simp only [Option.isSome_some, if_true]
      split_ifs at hcons ⊢ <;> omega
  · rw [normalShifted_nofetch prog st hf]
    refine ⟨hpc,
      ⟨oLtPc_none _, hIF, hID, hEX, hMEM⟩,
      ⟨oGt_left_none _, oGt_left_none _, oGt_left_none _, oGt_left_none _,
        o1, o2, o3, o5, o6, o8⟩, ?_⟩
    show st.completed + (if st.pWB.isSome then 1 else 0) +
        ((if (none : Option Nat).isSome then 1 else 0) +
          (if st.pIF.isSome then 1 else 0) + (if st.pID.isSome then 1 else 0) +
          (if st.pEX.isSome then 1 else 0) + (if st.pMEM.isSome then 1 else 0)) +
        (prog.length - st.pc) = prog.length
    simp only [occCount] at hcons
    simp only [Option.isSome_none, Bool.false_eq_true, if_false]
    split_ifs at hcons ⊢ <;> omega

/-- When the hazard re-check after the shift demands a stall, the Execute
slot (holding the former Decode occupant) can never equal the Decode slot
(holding the former Fetch occupant), because Fetch and Decode held distinct
indices in the invariant state. -/
theorem revert_impossible (prog : List Instr) (st : SimState)
    (h : Inv prog.length st)
    (hreq : 0 < needed_stalls_for_id prog (normalShifted prog st).pID
        (normalShifted prog st).pEX (normalShifted prog st).pMEM) :
    ¬ (normalShifted prog st).pEX = (normalShifted prog st).pID := by
  intro heq
  obtain ⟨i, hi⟩ : ∃ i, (normalShifted prog st).pID = some i := by
    cases hid : (normalShifted prog st).pID with
    | none =>
      rw [hid, needed_stalls_none] at hreq
      exact absurd hreq (by omega)
    | some i => exact ⟨i, rfl⟩
  have hIFi : st.pIF = some i := by
    have hh : (normalShifted prog st).pID = st.pIF := by
      simp [normalShifted]
    rw [hh] at hi
    exact hi
  have hIDi : st.pID = some i := by
    have hEXi : (normalShifted prog st).pEX = some i := heq.trans hi
    have hh : (normalShifted prog st).pEX = st.pID := by
      simp [normalShifted]
    rw [hh] at hEXi
    exact hEXi
  have := h.2.2.1.1 i hIFi i hIDi
  omega

/-- One loop iteration preserves the invariant. -/
theorem inv_step (prog : List Instr) (st : SimState) (h : Inv prog.length st) :
    Inv prog.length (step prog st) := by
  by_cases hsc : 0 < st.stall_counter
  · obtain ⟨hpc, ⟨hIF, hID, hEX, hMEM, hWB⟩,
      ⟨o1, o2, o3, o4, o5, o6, o7, o8, o9, o10⟩, hcons⟩ := h
    rw [step_stall prog st hsc]
    refine ⟨hpc, ⟨hIF, hID, oLtPc_none _, hEX, hMEM⟩,
      ⟨o1, oGt_right_none _, o2, o3, oGt_right_none _, o5, o6,
        oGt_left_none _, oGt_left_none _, o8⟩, ?_⟩
    show st.completed + (if st.pWB.isSome then 1 else 0) +
        ((if st.pIF.isSome then 1 else 0) + (if st.pID.isSome then 1 else 0) +
          (if (none : Option Nat).isSome then 1 else 0) +
          (if st.pEX.isSome then 1 else 0) + (if st.pMEM.isSome then 1 else 0)) +
        (prog.length - st.pc) = prog.length
    simp only [occCount] at hcons
    simp only [Option.isSome_none, Bool.false_eq_true, if_false]
    split_ifs at hcons ⊢ <;> omega
  · have h0 : st.stall_counter = 0 := by omega
    have hNS := inv_normalShifted prog st h
    by_cases hreq : 0 < needed_stalls_for_id prog (normalShifted prog st).pID
        (normalShifted prog st).pEX (normalShifted prog st).pMEM
    · rw [step_normal_arm prog st h0 hreq (revert_impossible prog st h hreq)]
      exact hNS
    · have hreq0 : needed_stalls_for_id prog (normalShifted prog st).pID
          (normalShifted prog st).pEX (normalShifted prog st).pMEM = 0 := by omega
      rw [step_normal_no_stall prog st h0 hreq0]
      exact hNS

/-- The invariant holds after any number of iterations from the initial
state. -/
theorem inv_stepIter (prog : List Instr) : ∀ t, Inv prog.length (stepIter prog t) := by
  intro t
  induction t with
  | zero =>
    refine ⟨Nat.zero_le _,
      ⟨oLtPc_none _, oLtPc_none _, oLtPc_none _, oLtPc_none _, oLtPc_none _⟩,
      ⟨oGt_left_none _, oGt_left_none _, oGt_left_none _, oGt_left_none _,
        oGt_left_none _, oGt_left_none _, oGt_left_none _, oGt_left_none _,
        oGt_left_none _, oGt_right_none _⟩, ?_⟩
    show 0 + occCount initState + (prog.length - 0) = prog.length
    simp [occCount, initState]
  | succ t ih => exact inv_step prog (stepIter prog t) ih

/-- Every reachable state satisfies the invariant. -/
theorem inv_of_reachable (prog : List Instr) (st : SimState)
    (h : Reachable prog st) : Inv prog.length st := by
  obtain ⟨t, ht⟩ := h
  exact ht ▸ inv_stepIter prog t

/-! ### C8: frame property of a stall cycle -/

/-- C8: in every simulator cycle taken while the pending-stall counter is
positive, the Memory occupant moves to Write-back, the Execute occupant
moves to Memory leaving Execute a bubble, the Decode and Fetch slots and the
program counter are unchanged (so no instruction is fetched), the
pending-stall counter drops by exactly one, and the bubble-cycle total rises
by exactly one.  No hazard re-check happens in such a cycle: the resulting
pending-stall counter is exactly the decremented old one, never a freshly
computed requirement. -/
theorem stall_cycle_frame (prog : List Instr) (st : SimState)
    (h : 0 < st.stall_counter) :
    (step prog st).pWB = st.pMEM ∧ (step prog st).pMEM = st.pEX ∧
    (step prog st).pEX = none ∧ (step prog st).pID = st.pID ∧
    (step prog st).pIF = st.pIF ∧ (step prog st).pc = st.pc ∧
    (step prog st).stall_counter + 1 = st.stall_counter ∧
    (step prog st).total_stalls = st.total_stalls + 1 := by
  rw [step_stall prog st h]
  refine ⟨rfl, rfl, rfl, rfl, rfl, rfl, ?_, rfl⟩
  show st.stall_counter - 1 + 1 = st.stall_counter
  omega

/-- Witness for C8 on a concrete mid-stall state of `progC` (instruction 1
held in Decode with two pending bubbles, instruction 0 in Memory). -/
theorem stall_cycle_frame_witness :
    0 < (SimState.mk (some 2) (some 1) none (some 0) none 3 0 0 3 2).stall_counter ∧
    (step progC (SimState.mk (some 2) (some 1) none (some 0) none 3 0 0 3 2)).pWB =
      some 0 :=
  ⟨by decide, (stall_cycle_frame progC _ (by decide)).1⟩

/-! ### C4: shape of the Timeline Calculator's schedule -/

theorem stallsFrom_length (d1 d2 : String) (l : List Instr) :
    (stallsFrom d1 d2 l).length = l.length := by
  induction l generalizing d1 d2 with
  | nil => rfl
  | cons ins rest ih => simp [stallsFrom, ih]

theorem ifFrom_length (c : Nat) (ss : List Nat) : (ifFrom c ss).length = ss.length := by
  induction ss generalizing c with
  | nil => rfl
  | cons s rest ih => simp [ifFrom, ih]

theorem ifFrom_getD_succ (ss : List Nat) :
    ∀ (c i : Nat), i + 1 < ss.length →
      (ifFrom c ss).getD (i + 1) 0 = (ifFrom c ss).getD i 0 + 1 + ss.getD (i + 1) 0 := by
  induction ss with
  | nil =>
    intro c i h
    simp at h
  | cons s rest ih =>
    intro c i h
    cases i with
    | zero =>
      cases rest with
      | nil => simp at h
      | cons s' rest' =>
        simp only [ifFrom, List.getD_cons_succ, List.getD_cons_zero]
    | succ j =>
      have h' : j + 1 < rest.length := by simpa using h
      simpa [ifFrom, List.getD_cons_succ] using ih (c + s + 1) j h'

theorem getD_map_add (l : List Nat) (k : Nat) :
    ∀ i, i < l.length → (l.map (· + k)).getD i 0 = l.getD i 0 + k := by
  induction l with
  | nil =>
    intro i h
    simp at h
  | cons x rest ih =>
    intro i h
    cases i with
    | zero => simp
    | succ j => simpa using ih j (by simpa using h)

theorem stalls_rule_le_two (d1 d2 : String) (ins : Instr) : stalls_rule d1 d2 ins ≤ 2 := by
  simp only [stalls_rule]
  split_ifs <;> decide

theorem stallsFrom_getD_le (l : List Instr) :
    ∀ (d1 d2 : String) (i : Nat), (stallsFrom d1 d2 l).getD i 0 ≤ 2 := by
  induction l with
  | nil =>
    intro d1 d2 i
    simp [stallsFrom]
  | cons ins rest ih =>
    intro d1 d2 i
    cases i with
    | zero => simpa [stallsFrom] using stalls_rule_le_two d1 d2 ins
    | succ j => simpa [stallsFrom] using ih ins.rd d1 j

/-- C4: for every valid program the Timeline Calculator's schedule satisfies
`IF[0] = 1`; `IF[i+1] = IF[i] + 1 + stallsBefore[i+1]`; the later stages are
fixed offsets `ID = IF+1`, `EX = IF+2`, `MEM = IF+3`, `WB = IF+4`; and every
per-instruction stall count lies in `{0, 1, 2}` (stated as `≤ 2` on `Nat`). -/
theorem timeline_invariants (prog : List Instr) (h : ValidProgram prog) :
    (IFc prog).getD 0 0 = 1 ∧
    (∀ i, i + 1 < prog.length →
      (IFc prog).getD (i + 1) 0 =
        (IFc prog).getD i 0 + 1 + (stallsBefore prog).getD (i + 1) 0) ∧
    (∀ i, i < prog.length →
      (IDc prog).getD i 0 = (IFc prog).getD i 0 + 1 ∧
      (EXc prog).getD i 0 = (IFc prog).getD i 0 + 2 ∧
      (MEMc prog).getD i 0 = (IFc prog).getD i 0 + 3 ∧
      (WBc prog).getD i 0 = (IFc prog).getD i 0 + 4) ∧
    (∀ i, (stallsBefore prog).getD i 0 ≤ 2) := by
  have hlen : (stallsBefore prog).length = prog.length := stallsFrom_length "" "" prog
  have hIFlen : (IFc prog).length = prog.length := by
    rw [IFc, ifFrom_length, hlen]
  refine ⟨?_, ?_, ?_, ?_⟩
  · obtain ⟨ins, rest, rfl⟩ : ∃ ins rest, prog = ins :: rest := by
      cases prog with
      | nil => exact absurd rfl h.1
      | cons a l => exact ⟨a, l, rfl⟩
    have h0 : stalls_rule "" "" ins = 0 := by simp [stalls_rule]
    simp [IFc, stallsBefore, stallsFrom, ifFrom, h0]
  · intro i hi
    rw [IFc]
    exact ifFrom_getD_succ (stallsBefore prog) 1 i (by rw [hlen]; exact hi)
  · intro i hi
    have hi' : i < (IFc prog).length := by rw [hIFlen]; exact hi
    exact ⟨getD_map_add _ 1 i hi', getD_map_add _ 2 i hi',
      getD_map_add _ 3 i hi', getD_map_add _ 4 i hi'⟩
  · intro i
    exact stallsFrom_getD_le prog "" "" i

/-- Witness for C4 on scenario B: a valid program whose first fetch cycle
is 1. -/
theorem timeline_invariants_witness :
    ValidProgram progB ∧ (IFc progB).getD 0 0 = 1 :=
  ⟨by decide, (timeline_invariants progB (by decide)).1⟩

/-! ### C1, C2, C5, C6: the two cores disagree (code bugs) -/

/-- C1: the claim says the Cycle Simulator's final cycle counter equals the
Timeline Calculator's `WB[N-1]` for every valid program.  The code violates
it already for the single-instruction program `add x1, x2, x3`: the
simulator retires the Write-back occupant only at the top of the *next*
cycle, finishing at cycle 6, while the calculator's `WB[0]` is 5. -/
theorem cycle_count_disagreement :
    (simulate progSingle).cycle = 6 ∧ totalCyclesCalc progSingle = 5 :=
  ⟨rfl, rfl⟩

/-- C2: the claim says the simulator's bubble-cycle total equals the
calculator's summed `stallsBefore`.  On `progC` the third instruction
depends only on the first: the calculator charges it 1 stall
(`stallsBefore = [0,2,1]`, sum 3), but in the simulator the producer has
already retired once the second instruction's 2-cycle stall has drained, so
only 2 bubble cycles are ever inserted. -/
theorem stall_count_disagreement :
    (simulate progC).total_stalls = 2 ∧ totalStallsCalc progC = 3 :=
  ⟨rfl, rfl⟩

/-- C5: on scenario B the Timeline Calculator produces exactly the claimed
schedule (`stallsBefore = [0,2]`, `IF = [1,4]`, total 8), but the Cycle
Simulator finishes at cycle 9, not 8, because of the extra retirement
cycle. -/
theorem scenario_b_eval :
    stallsBefore progB = [0, 2] ∧ IFc progB = [1, 4] ∧
    totalCyclesCalc progB = 8 ∧ (simulate progB).cycle = 9 :=
  ⟨rfl, rfl, rfl, rfl⟩

/-- C6: on the hazard-free scenario-A program the Timeline Calculator gives
all-zero stalls and `WB[N-1] = N + 4 = 7` as the claim states, but the Cycle
Simulator's elapsed-cycle count is 8 = N + 5, not N + 4. -/
theorem hazard_free_eval :
    stallsBefore progA = [0, 0, 0] ∧ totalCyclesCalc progA = 7 ∧
    (simulate progA).cycle = 8 :=
  ⟨rfl, rfl, rfl⟩

/-! ### C9: slot uniqueness and in-order stage traversal -/

theorem pair_le_one {a b : Option Nat} (i : Nat) (hab : oGt a b) :
    (if a = some i then 1 else 0) + (if b = some i then 1 else 0) ≤ 1 := by
  split_ifs with ha hb
  · exact absurd (hab i ha i hb) (lt_irrefl i)
  all_goals omega

theorem slot_uniq (n : Nat) (st : SimState) (h : Inv n st) (i : Nat) :
    slotCount st i ≤ 1 := by
  obtain ⟨-, -, ⟨o1, o2, o3, o4, o5, o6, o7, o8, o9, o10⟩, -⟩ := h
  have p1 := pair_le_one i o1
  have p2 := pair_le_one i o2
  have p3 := pair_le_one i o3
  have p4 := pair_le_one i o4
  have p5 := pair_le_one i o5
  have p6 := pair_le_one i o6
  have p7 := pair_le_one i o7
  have p8 := pair_le_one i o8
  have p9 := pair_le_one i o9
  have p10 := pair_le_one i o10
  simp only [slotCount]
  split_ifs at p1 p2 p3 p4 p5 p6 p7 p8 p9 p10 ⊢ <;> omega

theorem normalShifted_pIF (prog : List Instr) (st : SimState) :
    (normalShifted prog st).pIF =
      if st.pc < prog.length then some st.pc else none := rfl

theorem normalShifted_pID (prog : List Instr) (st : SimState) :
    (normalShifted prog st).pID = st.pIF := rfl

theorem normalShifted_pEX (prog : List Instr) (st : SimState) :
    (normalShifted prog st).pEX = st.pID := rfl

theorem normalShifted_pMEM (prog : List Instr) (st : SimState) :
    (normalShifted prog st).pMEM = st.pEX := rfl

theorem normalShifted_pWB (prog : List Instr) (st : SimState) :
    (normalShifted prog st).pWB = st.pMEM := rfl

theorem normalShifted_pIF_ne (prog : List Instr) (st : SimState) {i : Nat}
    (hlt : i < st.pc) : ¬ (normalShifted prog st).pIF = some i := by
  rw [normalShifted_pIF]
  split_ifs with hf
  · intro hc
    injection hc with hc'
    omega
  · intro hc
    exact nomatch hc

/-- During a stall cycle each instruction either stays in Fetch or Decode,
advances from Execute/Memory, or retires; this holds for every state. -/
theorem stepOk_stall (prog : List Instr) (st : SimState)
    (hsc : 0 < st.stall_counter) (i : Nat) :
    stepOk (stageOf st i) (stageOf (step prog st) i) := by
  rw [step_stall prog st hsc]
  by_cases h1 : st.pIF = some i <;> by_cases h2 : st.pID = some i <;>
    by_cases h3 : st.pEX = some i <;> by_cases h4 : st.pMEM = some i <;>
      by_cases h5 : st.pWB = some i <;>
        simp [stageOf, stepOk, h1, h2, h3, h4, h5]

/-- During the shift-and-fetch phase every instruction advances exactly one
stage, enters at Fetch, or retires. -/
theorem stepOk_normalShifted (prog : List Instr) (st : SimState)
    (h : Inv prog.length st) (i : Nat) :
    stepOk (stageOf st i) (stageOf (normalShifted prog st) i) := by
  obtain ⟨-, ⟨hIF, hID, hEX, hMEM, hWB⟩, -, -⟩ := h
  by_cases h1 : st.pIF = some i
  · have hfet := normalShifted_pIF_ne prog st (hIF i h1)
    simp [stageOf, stepOk, normalShifted_pID, normalShifted_pEX, normalShifted_pMEM,
      normalShifted_pWB, hfet, h1]
  · by_cases h2 : st.pID = some i
    · have hfet := normalShifted_pIF_ne prog st (hID i h2)
      simp [stageOf, stepOk, normalShifted_pID, normalShifted_pEX, normalShifted_pMEM,
        normalShifted_pWB, hfet, h1, h2]
    · by_cases h3 : st.pEX = some i
      · have hfet := normalShifted_pIF_ne prog st (hEX i h3)
        simp [stageOf, stepOk, normalShifted_pID, normalShifted_pEX, normalShifted_pMEM,
          normalShifted_pWB, hfet, h1, h2, h3]
      · by_cases h4 : st.pMEM = some i
        · have hfet := normalShifted_pIF_ne prog st (hMEM i h4)
          simp [stageOf, stepOk, normalShifted_pID, normalShifted_pEX, normalShifted_pMEM,
            normalShifted_pWB, hfet, h1, h2, h3, h4]
        · by_cases h5 : st.pWB = some i
          · have hfet := normalShifted_pIF_ne prog st (hWB i h5)
            simp [stageOf, stepOk, normalShifted_pID, normalShifted_pEX, normalShifted_pMEM,
              normalShifted_pWB, hfet, h1, h2, h3, h4, h5]
          · by_cases hfi : (normalShifted prog st).pIF = some i
            · simp [stageOf, stepOk, normalShifted_pID, normalShifted_pEX,
                normalShifted_pMEM, normalShifted_pWB, hfi, h1, h2, h3, h4, h5]
            · simp [stageOf, stepOk, normalShifted_pID, normalShifted_pEX,
                normalShifted_pMEM, normalShifted_pWB, hfi, h1, h2, h3, h4, h5]

/-- C9: in every reachable state of the Cycle Simulator each instruction
index occupies at most one of the five pipeline slots, and across one loop
iteration each instruction's stage occupancy either enters at Fetch, stays
put only in Fetch or Decode (the stages held during stalls), advances by
exactly one stage, or retires from Write-back -- so occupancy visits Fetch,
Decode, Execute, Memory, Write-back in that order with no stage skipped. -/
theorem slot_occupancy_invariants (prog : List Instr) (st : SimState)
    (h : Reachable prog st) :
    (∀ i, slotCount st i ≤ 1) ∧
    (∀ i, stepOk (stageOf st i) (stageOf (step prog st) i)) := by
  have hInv := inv_of_reachable prog st h
  refine ⟨fun i => slot_uniq prog.length st hInv i, fun i => ?_⟩
  by_cases hsc : 0 < st.stall_counter
  · exact stepOk_stall prog st hsc i
  · have h0 : st.stall_counter = 0 := by omega
    by_cases hreq : 0 < needed_stalls_for_id prog (normalShifted prog st).pID
        (normalShifted prog st).pEX (normalShifted prog st).pMEM
    · rw [step_normal_arm prog st h0 hreq (revert_impossible prog st hInv hreq)]
      exact stepOk_normalShifted prog st hInv i
    · rw [step_normal_no_stall prog st h0 (by omega)]
      exact stepOk_normalShifted prog st hInv i

/-- Witness for C9 at the (reachable) initial state of scenario B: no index
is duplicated and instruction 0 enters at Fetch on the first cycle. -/
theorem slot_occupancy_witness :
    Reachable progB initState ∧ slotCount initState 0 ≤ 1 ∧
    stepOk (stageOf initState 0) (stageOf (step progB initState) 0) :=
  ⟨⟨0, rfl⟩, (slot_occupancy_invariants progB initState ⟨0, rfl⟩).1 0,
   (slot_occupancy_invariants progB initState ⟨0, rfl⟩).2 0⟩

/-! ### C10: the Execute-to-Decode undo branch is dead in reachable states -/

theorem stepNoRevert_normal (prog : List Instr) (st : SimState)
    (h0 : st.stall_counter = 0) :
    stepNoRevert prog st =
      (let a := normalShifted prog st
       let req := needed_stalls_for_id prog a.pID a.pEX a.pMEM
       if 0 < req then { a with stall_counter := req } else a) := by
  have hsc : (tickRetire st).stall_counter = st.stall_counter := by
    rw [tickRetire_eq]
  have hwb : (tickRetire st).pWB = none := by rw [tickRetire_eq]
  have hstep : stepNoRevert prog st = advanceNoRevert prog (tickRetire st) := by
    simp only [stepNoRevert]
    rw [hsc, h0]
    simp
  rw [hstep]
  simp only [advanceNoRevert]
  rw [shiftFetch_eq prog (tickRetire st) hwb, shifted_tickRetire]

/-- C10: in every reachable state entering the normal-advance branch, after
the shift Decode holds the former Fetch occupant and Execute the former
Decode occupant; whenever the subsequent hazard check demands a nonzero
stall, the Execute slot differs from the Decode slot, so the branch that
moves an instruction back from Execute to Decode never executes: the loop
body coincides with its revert-free variant. -/
theorem no_revert_in_reachable (prog : List Instr) (st : SimState)
    (hr : Reachable prog st) (hsc : st.stall_counter = 0) :
    (normalShifted prog st).pID = st.pIF ∧
    (normalShifted prog st).pEX = st.pID ∧
    (0 < needed_stalls_for_id prog (normalShifted prog st).pID
        (normalShifted prog st).pEX (normalShifted prog st).pMEM →
      ¬ (normalShifted prog st).pEX = (normalShifted prog st).pID) ∧
    step prog st = stepNoRevert prog st := by
  have hInv := inv_of_reachable prog st hr
  refine ⟨rfl, rfl, fun hreq => revert_impossible prog st hInv hreq, ?_⟩
  by_cases hreq : 0 < needed_stalls_for_id prog (normalShifted prog st).pID
      (normalShifted prog st).pEX (normalShifted prog st).pMEM
  · rw [step_normal_arm prog st hsc hreq (revert_impossible prog st hInv hreq),
      stepNoRevert_normal prog st hsc]
    simp [hreq]
  · rw [step_normal_no_stall prog st hsc (by omega), stepNoRevert_normal prog st hsc]
    simp [hreq]

/-- Witness for C10 at the (reachable) initial state of scenario B. -/
theorem no_revert_witness :
    Reachable progB initState ∧ initState.stall_counter = 0 ∧
    step progB initState = stepNoRevert progB initState :=
  ⟨⟨0, rfl⟩, rfl, (no_revert_in_reachable progB initState ⟨0, rfl⟩ rfl).2.2.2⟩

/-! ### C7: termination of the simulator loop -/

/-- The shift-and-fetch phase strictly reduces the remaining work while
instructions remain: every occupied slot advances one stage, a fetch
converts an unfetched instruction into a Fetch occupant, and if nothing at
all could move then conservation would force `completed = N`. -/
theorem work_decreases (prog : List Instr) (st : SimState)
    (h : Inv prog.length st) (hlt : st.completed < prog.length) :
    work prog.length (normalShifted prog st) < work prog.length st := by
  obtain ⟨hpc, -, -, hcons⟩ := h
  by_cases hf : st.pc < prog.length
  · rw [normalShifted_fetch prog st hf]
    show 6 * (prog.length - (st.pc + 1)) +
        (if (some st.pc : Option Nat).isSome then 5 else 0) +
        (if st.pIF.isSome then 4 else 0) + (if st.pID.isSome then 3 else 0) +
        (if st.pEX.isSome then 2 else 0) + (if st.pMEM.isSome then 1 else 0) <
      6 * (prog.length - st.pc) + (if st.pIF.isSome then 5 else 0) +
        (if st.pID.isSome then 4 else 0) + (if st.pEX.isSome then 3 else 0) +
        (if st.pMEM.isSome then 2 else 0) + (if st.pWB.isSome then 1 else 0)
    simp only [Option.isSome_some, if_true]
    split_ifs <;> omega
  · rw [normalShifted_nofetch prog st hf]
    show 6 * (prog.length - st.pc) +
        (if (none : Option Nat).isSome then 5 else 0) +
        (if st.pIF.isSome then 4 else 0) + (if st.pID.isSome then 3 else 0) +
        (if st.pEX.isSome then 2 else 0) + (if st.pMEM.isSome then 1 else 0) <
      6 * (prog.length - st.pc) + (if st.pIF.isSome then 5 else 0) +
        (if st.pID.isSome then 4 else 0) + (if st.pEX.isSome then 3 else 0) +
        (if st.pMEM.isSome then 2 else 0) + (if st.pWB.isSome then 1 else 0)
    simp only [occCount] at hcons
    simp only [Option.isSome_none, Bool.false_eq_true, if_false]
    split_ifs at hcons ⊢ <;> omega

/-- The loop variant strictly decreases on every iteration taken while
instructions remain. -/
theorem variant_decreases (prog : List Instr) (st : SimState)
    (h : Inv prog.length st) (hlt : st.completed < prog.length) :
    simVariant prog.length (step prog st) < simVariant prog.length st := by
  by_cases hsc : 0 < st.stall_counter
  · rw [step_stall prog st hsc]
    show 3 * (6 * (prog.length - st.pc) + (if st.pIF.isSome then 5 else 0) +
        (if st.pID.isSome then 4 else 0) + (if (none : Option Nat).isSome then 3 else 0) +
        (if st.pEX.isSome then 2 else 0) + (if st.pMEM.isSome then 1 else 0)) +
        (st.stall_counter - 1) <
      3 * (6 * (prog.length - st.pc) + (if st.pIF.isSome then 5 else 0) +
        (if st.pID.isSome then 4 else 0) + (if st.pEX.isSome then 3 else 0) +
        (if st.pMEM.isSome then 2 else 0) + (if st.pWB.isSome then 1 else 0)) +
        st.stall_counter
    simp only [Option.isSome_none, Bool.false_eq_true, if_false]
    split_ifs <;> omega
  · have h0 : st.stall_counter = 0 := by omega
    have hw := work_decreases prog st h hlt
    by_cases hreq : 0 < needed_stalls_for_id prog (normalShifted prog st).pID
        (normalShifted prog st).pEX (normalShifted prog st).pMEM
    · rw [step_normal_arm prog st h0 hreq (revert_impossible prog st h hreq)]
      have hreq2 := needed_stalls_le_two prog (normalShifted prog st).pID
        (normalShifted prog st).pEX (normalShifted prog st).pMEM
      show 3 * work prog.length (normalShifted prog st) +
          needed_stalls_for_id prog (normalShifted prog st).pID
            (normalShifted prog st).pEX (normalShifted prog st).pMEM <
        3 * work prog.length st + st.stall_counter
      omega
    · rw [step_normal_no_stall prog st h0 (by omega)]
      show 3 * work prog.length (normalShifted prog st) + st.stall_counter <
        3 * work prog.length st + st.stall_counter
      omega

/-- With fuel at least the variant, the fuelled loop reaches
`completed = N` -- i.e. the C `while` loop terminates, exiting exactly when
the retire count equals the program length. -/
theorem runSim_completes (prog : List Instr) :
    ∀ (fuel : Nat) (st : SimState), Inv prog.length st →
      simVariant prog.length st ≤ fuel →
      (runSim prog fuel st).completed = prog.length := by
  intro fuel
  induction fuel with
  | zero =>
    intro st hInv hv
    obtain ⟨hpc, -, -, hcons⟩ := hInv
    show st.completed = prog.length
    simp only [simVariant, work] at hv
    simp only [occCount] at hcons
    split_ifs at hv hcons <;> omega
  | succ fuel ih =>
    intro st hInv hv
    by_cases hlt : st.completed < prog.length
    · rw [runSim, if_pos hlt]
      refine ih (step prog st) (inv_step prog st hInv) ?_
      have := variant_decreases prog st hInv hlt
      omega
    · rw [runSim, if_neg hlt]
      have hcons := hInv.2.2.2
      omega

/-- C7: for every valid program the Cycle Simulator's loop terminates: the
retire count never decreases across an iteration, every reachable state has
it bounded by `N`, and the run (the `while (completed < n)` loop) exits
with `completed = N` exactly. -/
theorem simulator_terminates (prog : List Instr) (h : ValidProgram prog) :
    (∀ st : SimState, st.completed ≤ (step prog st).completed) ∧
    (∀ st : SimState, Reachable prog st → st.completed ≤ prog.length) ∧
    (simulate prog).completed = prog.length := by
  refine ⟨completed_mono prog, ?_, ?_⟩
  · intro st hst
    have hcons := (inv_of_reachable prog st hst).2.2.2
    omega
  · refine runSim_completes prog (18 * prog.length) initState (inv_stepIter prog 0) ?_
    show 3 * (6 * (prog.length - 0) + 0 + 0 + 0 + 0 + 0) + 0 ≤ 18 * prog.length
    omega

/-- Witness for C7: the simulator run on scenario B retires both
instructions. -/
theorem simulator_terminates_witness :
    ValidProgram progB ∧ (simulate progB).completed = progB.length :=
  ⟨by decide, (simulator_terminates progB (by decide)).2.2⟩

end Pipeline
